import Mathlib

/-!
Verification of the excel-formulas-calculator core: a shallow embedding of
`src/efc/utils.py`, `src/efc/rpn/functions.py`,
`src/efc/rpn_builder/parser/operands.py` and `src/efc/rpn_builder/rpn.py`,
together with theorems settling the specification's claims about the
address codec, the RPN evaluation engine, the operand model and `SUM`.
-/

namespace Efc

/-! ### Address codec (src/efc/utils.py) -/

/-- The alphabet `string.ascii_uppercase` used by both conversions. -/
def ascii_uppercase : List Char := "ABCDEFGHIJKLMNOPQRSTUVWXYZ".data

/-- Position of a letter in `ascii_uppercase` (`ascii_uppercase.index(s)` in the
source): 0 for A through 25 for Z.  The source raises for characters outside
A–Z; the claims only quantify over the A–Z alphabet. -/
def letterIndex (c : Char) : Nat := c.toNat - 65

/-- Embedding of `col_str_to_index` (utils.py lines 12–24) on the character
list: the source computes `sum((index(s) + 1) * 26 ** (len - i))` with `i`
enumerating from 1, so the character at 1-based position `i` from the left has
exponent `len - i`, i.e. the head of the list has exponent `rest.length`. -/
def colStrToIndexAux : List Char → Nat
  | [] => 0
  | c :: rest => (letterIndex c + 1) * 26 ^ rest.length + colStrToIndexAux rest

/-- `col_str_to_index` on strings. -/
def col_str_to_index (s : String) : Nat := colStrToIndexAux s.data

/-- Embedding of the `while i:` loop of `col_index_to_str` (utils.py lines
27–37), producing the letters least-significant first: `i, r = divmod(i, 26)`;
if `r == 0` then `r = 26; i -= 1`; append `ascii_uppercase[r - 1]`. -/
def colIndexToStrAux : Nat → List Char
  | 0 => []
  | m + 1 =>
    if (m + 1) % 26 = 0 then
      ascii_uppercase.getD (26 - 1) 'A' :: colIndexToStrAux ((m + 1) / 26 - 1)
    else ascii_uppercase.getD ((m + 1) % 26 - 1) 'A' :: colIndexToStrAux ((m + 1) / 26)
termination_by n => n
decreasing_by
  · have := Nat.div_lt_self (Nat.succ_pos m) (show 1 < 26 by norm_num)
    omega
  · exact Nat.div_lt_self (Nat.succ_pos m) (by norm_num)

/-- `col_index_to_str`: the accumulated characters are reversed
(`chars.reverse()`) before joining. -/
def col_index_to_str (i : Nat) : String := String.mk (colIndexToStrAux i).reverse

/-- Appending a final letter multiplies the prefix value by 26 and adds the
letter's 1-based value. -/
theorem colStrToIndexAux_append (xs : List Char) (c : Char) :
    colStrToIndexAux (xs ++ [c]) = 26 * colStrToIndexAux xs + (letterIndex c + 1) := by
  induction xs with
  | nil => simp [colStrToIndexAux]
  | cons x xs ih =>
    simp only [List.cons_append, colStrToIndexAux, List.append_eq, ih]
    have hlen : (xs ++ [c]).length = xs.length + 1 := by simp
    rw [hlen]
    ring

/-- Every letter produced by the digit loop is in the A–Z alphabet, and its
`letterIndex` recovers the digit. -/
theorem letterIndex_ascii_getD : ∀ k, k < 26 →
    letterIndex (ascii_uppercase.getD k 'A') = k ∧ ascii_uppercase.getD k 'A' ∈ ascii_uppercase := by
  decide

/-- Characters of the A–Z alphabet are recovered from their `letterIndex`. -/
theorem ascii_getD_letterIndex : ∀ c ∈ ascii_uppercase,
    ascii_uppercase.getD (letterIndex c) 'A' = c ∧ letterIndex c < 26 := by
  decide

/-- The digit loop of `col_index_to_str` is a right inverse of
`col_str_to_index`. -/
theorem colStrToIndexAux_colIndexToStrAux (n : Nat) :
    colStrToIndexAux (colIndexToStrAux n).reverse = n := by
  induction n using Nat.strong_induction_on with
  | _ n ih =>
    match n with
    | 0 => simp [colIndexToStrAux, colStrToIndexAux]
    | m + 1 =>
      rw [colIndexToStrAux]
      by_cases hr : (m + 1) % 26 = 0
      · rw [if_pos hr]
        have hdvd : 26 * ((m + 1) / 26) = m + 1 := Nat.mul_div_cancel' (Nat.dvd_of_mod_eq_zero hr)
        have hq1 : 1 ≤ (m + 1) / 26 := by
          rcases Nat.eq_zero_or_pos ((m + 1) / 26) with h0 | h1
          · rw [h0, Nat.mul_zero] at hdvd; exact absurd hdvd (by omega)
          · exact h1
        have hlt : (m + 1) / 26 - 1 < m + 1 := by
          have := Nat.div_lt_self (Nat.succ_pos m) (show 1 < 26 by norm_num)
          omega
        rw [List.reverse_cons, colStrToIndexAux_append, ih _ hlt]
        have h25 := (letterIndex_ascii_getD (26 - 1) (by norm_num)).1
        rw [h25]
        omega
      · rw [if_neg hr]
        have hrlt : (m + 1) % 26 < 26 := Nat.mod_lt _ (by norm_num)
        have hr1 : 1 ≤ (m + 1) % 26 := Nat.one_le_iff_ne_zero.mpr hr
        have hlt : (m + 1) / 26 < m + 1 := Nat.div_lt_self (Nat.succ_pos m) (by norm_num)
        rw [List.reverse_cons, colStrToIndexAux_append, ih _ hlt]
        have hidx := (letterIndex_ascii_getD ((m + 1) % 26 - 1) (by omega)).1
        rw [hidx]
        have := Nat.div_add_mod (m + 1) 26
        omega

/-- On least-significant-first letter lists over A–Z, the digit loop is a left
inverse of the place-value sum. -/
theorem colIndexToStrAux_colStrToIndexAux (ls : List Char)
    (h : ∀ c ∈ ls, c ∈ ascii_uppercase) :
    colIndexToStrAux (colStrToIndexAux ls.reverse) = ls := by
  induction ls with
  | nil => simp [colStrToIndexAux, colIndexToStrAux]
  | cons c rest ih =>
    have hc := h c (List.mem_cons_self c rest)
    have hrest : ∀ x ∈ rest, x ∈ ascii_uppercase := fun x hx => h x (List.mem_cons_of_mem c hx)
    have hv := ascii_getD_letterIndex c hc
    set T := colStrToIndexAux rest.reverse with hT
    have hstep : colStrToIndexAux ((c :: rest).reverse) = 26 * T + (letterIndex c + 1) := by
      rw [List.reverse_cons, colStrToIndexAux_append]
    rw [hstep]
    have hm : 26 * T + (letterIndex c + 1) = (26 * T + letterIndex c) + 1 := by omega
    rw [hm, colIndexToStrAux]
    by_cases h26 : letterIndex c + 1 = 26
    · have hmod : (26 * T + letterIndex c + 1) % 26 = 0 := by omega
      rw [if_pos hmod]
      have hdiv : (26 * T + letterIndex c + 1) / 26 = T + 1 := by
        have : 26 * T + letterIndex c + 1 = 26 * (T + 1) := by omega
        rw [this, Nat.mul_div_cancel_left _ (by norm_num : 0 < 26)]
      rw [hdiv]
      have hz : ascii_uppercase.getD (26 - 1) 'A' = c := by
        have := hv.1
        rw [show letterIndex c = 26 - 1 by omega] at this
        exact this
      rw [hz]
      simp only [Nat.add_sub_cancel]
      rw [ih hrest]
    · have hlt : letterIndex c + 1 < 26 := by have := hv.2; omega
      have hmod : (26 * T + letterIndex c + 1) % 26 = letterIndex c + 1 := by
        rw [Nat.add_assoc, Nat.add_comm, Nat.add_mul_mod_self_left]
        exact Nat.mod_eq_of_lt hlt
      rw [if_neg (by omega)]
      rw [hmod]
      have hdiv : (26 * T + letterIndex c + 1) / 26 = T := by
        rw [Nat.add_assoc, Nat.add_comm, Nat.add_mul_div_left _ _ (by norm_num : 0 < 26),
          Nat.div_eq_of_lt hlt]
        omega
      rw [hdiv]
      simp only [Nat.add_sub_cancel]
      rw [hv.1, ih hrest]

/-- The weight formula exactly as the claim words it: each letter contributes
`(letter_value + 1) * 26 ^ (position from the right, 1-based)`, so the head of
the list (leftmost letter) sits at 1-based right-position `rest.length + 1`. -/
def specColIndexClaimed : List Char → Nat
  | [] => 0
  | c :: rest => (letterIndex c + 1) * 26 ^ (rest.length + 1) + specColIndexClaimed rest

/-- The corrected weight formula, written as the indexed sum of the source
comprehension: the character at 0-based index `i` from the left (1-based
position `i + 1`) carries exponent `length - (i + 1)`, i.e. its 0-based
position from the right. -/
def colIndexFormula (cs : List Char) : Nat :=
  ∑ i in Finset.range cs.length, (letterIndex (cs.getD i 'A') + 1) * 26 ^ (cs.length - (i + 1))

theorem colIndexFormula_concat (xs : List Char) (c : Char) :
    colIndexFormula (xs ++ [c]) = 26 * colIndexFormula xs + (letterIndex c + 1) := by
  unfold colIndexFormula
  have hlen : (xs ++ [c]).length = xs.length + 1 := by simp
  rw [hlen, Finset.sum_range_succ]
  have hlast : (xs ++ [c]).getD xs.length 'A' = c := by
    rw [List.getD_append_right _ _ _ _ (Nat.le_refl _), Nat.sub_self]
    rfl
  have hmain : ∑ i in Finset.range xs.length,
      (letterIndex ((xs ++ [c]).getD i 'A') + 1) * 26 ^ (xs.length + 1 - (i + 1)) =
      ∑ i in Finset.range xs.length,
        26 * ((letterIndex (xs.getD i 'A') + 1) * 26 ^ (xs.length - (i + 1))) := by
    apply Finset.sum_congr rfl
    intro i hi
    have hilt : i < xs.length := Finset.mem_range.mp hi
    rw [List.getD_append _ _ _ _ hilt]
    have hexp : xs.length + 1 - (i + 1) = (xs.length - (i + 1)) + 1 := by omega
    rw [hexp, pow_succ]
    ring
  rw [hmain, ← Finset.mul_sum, hlast]
  simp [Nat.sub_self]

/-- C6: for every integer n ≥ 1, `col_str_to_index (col_index_to_str n) = n`,
and for every non-empty canonical uppercase A–Z string s,
`col_index_to_str (col_str_to_index s) = s`. -/
theorem col_roundtrip :
    (∀ n : Nat, 1 ≤ n → col_str_to_index (col_index_to_str n) = n) ∧
    (∀ s : String, s ≠ "" → (∀ c ∈ s.data, c ∈ ascii_uppercase) →
      col_index_to_str (col_str_to_index s) = s) := by
  constructor
  · intro n _
    show colStrToIndexAux (String.mk (colIndexToStrAux n).reverse).data = n
    exact colStrToIndexAux_colIndexToStrAux n
  · intro s _ h
    obtain ⟨l⟩ := s
    show String.mk (colIndexToStrAux (colStrToIndexAux l)).reverse = String.mk l
    have := colIndexToStrAux_colStrToIndexAux l.reverse
      (fun c hc => h c (List.mem_reverse.mp hc))
    rw [List.reverse_reverse] at this
    rw [this, List.reverse_reverse]

/-- Witness: the round-trip at n = 3 and s = "AB". -/
theorem col_roundtrip_witness :
    (1 ≤ 3 ∧ col_str_to_index (col_index_to_str 3) = 3) ∧
    (("AB" : String) ≠ "" ∧ col_index_to_str (col_str_to_index "AB") = "AB") :=
  ⟨⟨by decide, col_roundtrip.1 3 (by decide)⟩,
   ⟨by decide, col_roundtrip.2 "AB" (by decide) (by decide)⟩⟩

/-- C7 counterexample: with the claim's 1-based-from-the-right exponent, the
single letter "A" would map to 26, but `col_str_to_index "A"` is 1. -/
theorem col_str_to_index_weight_counterexample :
    col_str_to_index "A" = 1 ∧ specColIndexClaimed "A".data = 26 ∧
      col_str_to_index "A" ≠ specColIndexClaimed "A".data := by
  refine ⟨rfl, rfl, ?_⟩
  decide

/-- C7 (amended): `col_str_to_index` computes the sum, over all letter
positions, of `(letter_value + 1) * 26 ^ (position from the right, 0-based)`,
with A contributing 1 and Z contributing 26. -/
theorem col_str_to_index_positional :
    (∀ s : String, col_str_to_index s = colIndexFormula s.data) ∧
      letterIndex 'A' + 1 = 1 ∧ letterIndex 'Z' + 1 = 26 := by
  refine ⟨?_, by decide, by decide⟩
  intro s
  show colStrToIndexAux s.data = colIndexFormula s.data
  induction s.data using List.reverseRecOn with
  | nil => rfl
  | append_singleton xs c ih => rw [colStrToIndexAux_append, colIndexFormula_concat, ih]

/-! ### Python value model

Scalar values flowing through the engine: numbers (modelled as rationals —
the claims only exercise exact arithmetic), text, booleans, None/blank, and
nested lists (used by `sum_func` for ranges and sets of rows). -/

inductive PyVal where
  | none
  | boolean (b : Bool)
  | num (q : ℚ)
  | str (s : String)
  | list (l : List PyVal)

/-- Python truthiness: None, False, 0, empty text and the empty list are
falsy. -/
def PyVal.truthy : PyVal → Bool
  | .none => false
  | .boolean b => b
  | .num q => if q = 0 then false else true
  | .str s => if s = "" then false else true
  | .list l => if l.isEmpty then false else true

/-! ### Error taxonomy (src/efc/rpn_builder/parser/operands.py lines 62–120) -/

inductive ErrKind where
  | unknown                               -- ErrorOperand, code 300
  | valueError                            -- ValueErrorOperand, code 301
  | worksheetNotExist                     -- WorksheetNotExist, code 302
  | namedRangeNotExist (name : String)    -- NamedRangeNotExist, code 303
  | zeroDivision                          -- ZeroDivisionErrorOperand, code 304
  | notFound                              -- NotFoundErrorOperand, code 305
  | functionNotSupported (f_name : String) -- FunctionNotSupported, code 306
deriving DecidableEq

/-- The spreadsheet display string of each error class (`string_value`). -/
def ErrKind.string_value : ErrKind → String
  | .unknown => "#ERROR!"
  | .valueError => "#VALUE!"
  | .worksheetNotExist => "#REF!"
  | .namedRangeNotExist _ => "#NAME?"
  | .zeroDivision => "#DIV/0!"
  | .notFound => "#VALUE!"
  | .functionNotSupported _ => "#NAME?"

/-- An error operand's mutable diagnostic attributes: `formula` (set by
`RPN.calc` after catching) and `ws_name` (set only if still None). -/
structure ErrorData where
  kind : ErrKind
  ws_name : Option String
  formula : Option String
deriving DecidableEq

/-! ### Operands (src/efc/rpn_builder/parser/operands.py)

The operand kinds the claims exercise.  `CellSet`/`SimpleSet` store
`_items`, a dict from row number to the list of that row's elements,
modelled as an association list with unique keys.  The data-source handle
carried by every OperandLikeObject is opaque to all the claims and is not
stored. -/

inductive Operand where
  | simple (value : PyVal)                                        -- SimpleOperand
  | singleCell (row column : Nat) (ws_name : Option String)       -- SingleCellOperand
  | cellSet (ws_name : Option String) (items : List (Nat × List Operand))   -- CellSetOperand
  | simpleSet (ws_name : Option String) (items : List (Nat × List Operand)) -- SimpleSetOperand
  | error (e : ErrorData)                                         -- ErrorOperand and subclasses

/-- isinstance(·, ErrorOperand) -/
def Operand.isError : Operand → Bool
  | .error _ => true
  | _ => false

/-- isinstance(·, SingleCellOperand) -/
def Operand.isSingleCell : Operand → Bool
  | .singleCell .. => true
  | _ => false

/-- isinstance(·, SimpleOperand): only literal scalar operands; error
operands are not SimpleOperand instances. -/
def Operand.isSimple : Operand → Bool
  | .simple _ => true
  | _ => false

/-- The `operands_type` class attribute of a set operand. -/
inductive OperandsType where
  | singleCellType    -- CellSetOperand.operands_type = SingleCellOperand
  | simpleType        -- SimpleSetOperand.operands_type = SimpleOperand

def Operand.matchesType : OperandsType → Operand → Bool
  | .singleCellType, o => o.isSingleCell
  | .simpleType, o => o.isSimple

/-- Items dict of a set operand. -/
abbrev SetItems := List (Nat × List Operand)

/-- Lookup of `_items[row]`, defaulting to the empty row (defaultdict). -/
def SetOperand.getRow (st : SetItems) (r : Nat) : List Operand :=
  match st.find? (fun p => p.1 == r) with
  | some p => p.2
  | Option.none => []

/-- Store a row list under a key, replacing an existing binding or appending
a fresh one (defaultdict update). -/
def SetOperand.updateRow (st : SetItems) (r : Nat) (row : List Operand) : SetItems :=
  if st.any (fun p => p.1 == r) then
    st.map (fun p => if p.1 == r then (r, row) else p)
  else st ++ [(r, row)]

/-- `SetOperand.check_type` on a list argument: raises ValueErrorOperand when
any element is not an instance of the set's `operands_type`. -/
def SetOperand.check_type (t : OperandsType) (items : List Operand) : Except ErrorData Unit :=
  if items.any (fun i => !(Operand.matchesType t i)) then
    .error ⟨.valueError, Option.none, Option.none⟩
  else .ok ()

/-- `SetOperand.add_many`: re-checks the type, then appends every item to
row `row`. -/
def SetOperand.add_many (t : OperandsType) (st : SetItems) (items : List Operand)
    (row : Nat) : Except ErrorData SetItems :=
  match SetOperand.check_type t items with
  | .error e => .error e
  | .ok _ => .ok (SetOperand.updateRow st row (SetOperand.getRow st row ++ items))

/-- Largest row key of a non-empty items dict (`max(self._items)`). -/
def SetOperand.maxKey (st : SetItems) : Nat :=
  (st.map Prod.fst).foldl Nat.max 0

/-- `SetOperand.add_row`: checks the type, picks row `max + 1` (or 1 when the
set is empty) and adds every item to that single fresh row. -/
def SetOperand.add_row (t : OperandsType) (st : SetItems) (items : List Operand) :
    Except ErrorData SetItems :=
  match SetOperand.check_type t items with
  | .error e => .error e
  | .ok _ =>
    let r := if st.isEmpty then 1 else SetOperand.maxKey st + 1
    SetOperand.add_many t st items r

/-! ### Operations and the RPN engine (src/efc/rpn_builder/rpn.py) -/

/-- Outcome of calling `token.eval(*args)`: a returned operand, or one of the
exception families `RPN.calc` distinguishes — a raised ErrorOperand, a
TypeError/ValueError, a ZeroDivisionError, or any other exception (which the
engine does not catch). -/
inductive EvalOutcome where
  | ok (v : Operand)
  | raiseError (e : ErrorData)
  | typeOrValueFault
  | zeroDivFault
  | otherFault

/-- An Operation token: function name, declared arity, and its evaluation
function (the wrapper around the function-table entry). -/
structure Operation where
  f_name : String
  operands_count : Nat
  eval : List Operand → EvalOutcome

/-- A token of the postfix sequence: an OperandLikeObject, an Operation, or
any other object (which the calc loop's if/elif chain silently ignores). -/
inductive Token where
  | operandLike (o : Operand)
  | operation (op : Operation)
  | other

def Token.isOther : Token → Bool
  | .other => true
  | _ => false

/-- Conditions that escape `RPN.calc` as hard failures: the OperandsMissing
exception (with the operation's function name and the formula text), the
IndexError of `result[0]` on an empty final stack, and any exception from a
function body other than the two anticipated kinds. -/
inductive Fatal where
  | operandsMissing (f_name : String) (formula : String)
  | indexError
  | otherFault
deriving DecidableEq

/-- Result of `handle_result`: a single operand, or the raw leftover list
when the first value is neither a SingleCell nor a Simple operand. -/
inductive CalcResult where
  | op (o : Operand)
  | raw (l : List Operand)

/-- Error stamping at the end of the calc loop: `v.formula = self.formula`
and, only if still None, `v.ws_name = ws_name`. -/
def RPN.stamp (formula : String) (ws_name : Option String) (v : Operand) : Operand :=
  match v with
  | .error e =>
    .error ⟨e.kind, (match e.ws_name with | Option.none => ws_name | some w => some w),
      some formula⟩
  | v => v

/-- One iteration of the calc loop on one token.  The stack is a python list
used with `append`/`pop`, so its top is the last element; popping
`operands_count` times and reversing restores the last `operands_count`
elements in their original order. -/
def RPN.calcStep (formula : String) (ws_name : Option String)
    (stack : List Operand) : Token → Except Fatal (List Operand)
  | .operandLike o => .ok (stack ++ [o])
  | .other => .ok stack
  | .operation op =>
    if stack.length < op.operands_count then
      .error (.operandsMissing op.f_name formula)
    else
      let args := stack.drop (stack.length - op.operands_count)
      let rest := stack.take (stack.length - op.operands_count)
      match op.eval args with
      | .ok v => .ok (rest ++ [RPN.stamp formula ws_name v])
      | .raiseError e => .ok (rest ++ [RPN.stamp formula ws_name (.error e)])
      | .typeOrValueFault =>
        .ok (rest ++ [RPN.stamp formula ws_name (.error ⟨.valueError, Option.none, Option.none⟩)])
      | .zeroDivFault =>
        .ok (rest ++ [RPN.stamp formula ws_name (.error ⟨.zeroDivision, Option.none, Option.none⟩)])
      | .otherFault => .error .otherFault

/-- The `for token in self` loop of `RPN.calc` from an intermediate stack: a
raised condition aborts the loop, otherwise the updated stack threads on. -/
def RPN.calcFold (formula : String) (ws_name : Option String)
    (stack : List Operand) : List Token → Except Fatal (List Operand)
  | [] => .ok stack
  | t :: ts =>
    match RPN.calcStep formula ws_name stack t with
    | .error e => .error e
    | .ok s => RPN.calcFold formula ws_name s ts

/-- The main loop of `RPN.calc` over the whole token sequence, starting from
the empty result stack. -/
def RPN.calcTokens (formula : String) (ws_name : Option String)
    (tokens : List Token) : Except Fatal (List Operand) :=
  RPN.calcFold formula ws_name [] tokens

/-- `RPN.handle_result` (rpn.py lines 21–42): one value is returned as-is;
otherwise the first error wins; otherwise a set is built from all values via
one `add_row` call, a raised ValueErrorOperand being returned instead; a
first value of any other kind returns the raw list. -/
def RPN.handle_result (result : List Operand) (ws_name : Option String) :
    Except Fatal CalcResult :=
  match result with
  | [x] => .ok (.op x)
  | _ =>
    match result.find? Operand.isError with
    | some e => .ok (.op e)
    | Option.none =>
      match result with
      | [] => .error .indexError
      | first :: _ =>
        let set_type : Option OperandsType :=
          if first.isSingleCell then some .singleCellType
          else if first.isSimple then some .simpleType
          else Option.none
        match set_type with
        | Option.none => .ok (.raw result)
        | some t =>
          match SetOperand.add_row t [] result with
          | .ok items =>
            match t with
            | .singleCellType => .ok (.op (.cellSet ws_name items))
            | .simpleType => .ok (.op (.simpleSet ws_name items))
          | .error e => .ok (.op (.error e))

/-- `RPN.calc` end to end (named `rpnCalc` because `calc` is a Lean keyword):
run the loop, then fold the leftover stack with `handle_result`. -/
def RPN.rpnCalc (formula : String) (ws_name : Option String)
    (tokens : List Token) : Except Fatal CalcResult :=
  match RPN.calcTokens formula ws_name tokens with
  | .error f => .error f
  | .ok result => RPN.handle_result result ws_name

theorem RPN.calcFold_append (formula : String) (ws : Option String)
    (xs ys : List Token) (s : List Operand) :
    RPN.calcFold formula ws s (xs ++ ys) =
      match RPN.calcFold formula ws s xs with
      | .error e => .error e
      | .ok s' => RPN.calcFold formula ws s' ys := by
  induction xs generalizing s with
  | nil => rfl
  | cons x xs ih =>
    rw [List.cons_append]
    have hl : RPN.calcFold formula ws s (x :: (xs ++ ys)) =
        match RPN.calcStep formula ws s x with
        | Except.error e => Except.error e
        | Except.ok s' => RPN.calcFold formula ws s' (xs ++ ys) := rfl
    have hr : RPN.calcFold formula ws s (x :: xs) =
        match RPN.calcStep formula ws s x with
        | Except.error e => Except.error e
        | Except.ok s' => RPN.calcFold formula ws s' xs := rfl
    rw [hl, hr]
    cases RPN.calcStep formula ws s x with
    | error e => rfl
    | ok s' => exact ih s'

/-- C2: an operation reached with fewer stack values than its arity makes the
whole evaluation fail with the OperandsMissing condition carrying the
operation's function name and the source formula text, regardless of any
tokens after it; the failure propagates to the caller as a hard failure of
the evaluation call — the call returns no operand result at all, so it is in
particular never converted into a spreadsheet error operand result. -/
theorem calc_operands_missing (formula : String) (ws : Option String)
    (pre post : List Token) (stack : List Operand) (op : Operation)
    (h1 : RPN.calcTokens formula ws pre = .ok stack)
    (h2 : stack.length < op.operands_count) :
    RPN.rpnCalc formula ws (pre ++ Token.operation op :: post) =
      .error (.operandsMissing op.f_name formula) ∧
    ∀ r : CalcResult,
      RPN.rpnCalc formula ws (pre ++ Token.operation op :: post) ≠ .ok r := by
  have hstep : RPN.calcStep formula ws stack (.operation op) =
      .error (.operandsMissing op.f_name formula) := by
    unfold RPN.calcStep
    simp only [h2, if_true, if_pos]
  have hfold : RPN.calcTokens formula ws (pre ++ Token.operation op :: post) =
      .error (.operandsMissing op.f_name formula) := by
    unfold RPN.calcTokens at h1 ⊢
    rw [RPN.calcFold_append, h1]
    show (match RPN.calcStep formula ws stack (.operation op) with
          | Except.error e => Except.error e
          | Except.ok s' => RPN.calcFold formula ws s' post) = _
    rw [hstep]
  have hmain : RPN.rpnCalc formula ws (pre ++ Token.operation op :: post) =
      .error (.operandsMissing op.f_name formula) := by
    unfold RPN.rpnCalc
    rw [hfold]
  refine ⟨hmain, ?_⟩
  intro r hr
  rw [hmain] at hr
  exact Except.noConfusion hr

/-- Witness for C2: in the postfix sequence 4 / 9, the division operation is
reached while only the operand 4 is on the stack; the evaluation fails with
OperandsMissing for function "/" and the formula text even though a further
token follows, and returns no operand result. -/
theorem calc_operands_missing_witness :
    RPN.calcTokens "4 / 9" Option.none [Token.operandLike (Operand.simple (.num 4))] =
      .ok [Operand.simple (.num 4)] ∧
    ([Operand.simple (.num 4)] : List Operand).length < 2 ∧
    RPN.rpnCalc "4 / 9" Option.none
        [Token.operandLike (Operand.simple (.num 4)),
          Token.operation (Operation.mk "/" 2 (fun _ => .otherFault)),
          Token.operandLike (Operand.simple (.num 9))] =
      .error (.operandsMissing "/" "4 / 9") :=
  ⟨rfl, by decide,
    (calc_operands_missing "4 / 9" Option.none
      [Token.operandLike (Operand.simple (.num 4))]
      [Token.operandLike (Operand.simple (.num 9))]
      [Operand.simple (.num 4)] (Operation.mk "/" 2 (fun _ => .otherFault))
      rfl (by decide)).1⟩

/-- C3: when the final stack holds two or more values and at least one is an
error operand, `handle_result` returns the first error in stack order. -/
theorem handle_result_first_error (result : List Operand) (ws : Option String)
    (e : Operand) (h1 : 2 ≤ result.length)
    (h2 : result.find? Operand.isError = some e) :
    RPN.handle_result result ws = .ok (.op e) := by
  match result, h1 with
  | a :: b :: rest, _ =>
    show (match (a :: b :: rest).find? Operand.isError with
          | some e => Except.ok (CalcResult.op e)
          | Option.none => _) = _
    rw [h2]

/-- Witness for C3: a stack holding a scalar and then an unknown error yields
that error, not a set. -/
theorem handle_result_first_error_witness :
    (2 : Nat) ≤ 2 ∧
    RPN.handle_result
        [Operand.simple (.num 1), Operand.error ⟨.unknown, Option.none, Option.none⟩]
        Option.none =
      .ok (.op (Operand.error ⟨.unknown, Option.none, Option.none⟩)) :=
  ⟨by decide,
    handle_result_first_error
      [Operand.simple (.num 1), Operand.error ⟨.unknown, Option.none, Option.none⟩]
      Option.none (Operand.error ⟨.unknown, Option.none, Option.none⟩)
      (by decide) rfl⟩

/-- C4 counterexample: two leftover SingleCell values are folded into a
CellSet holding ONE row with both cells, not one new row per value as the
claim states. -/
theorem handle_result_each_value_new_row_counterexample :
    RPN.handle_result
        [Operand.singleCell 1 1 Option.none, Operand.singleCell 1 2 Option.none]
        Option.none =
      .ok (.op (.cellSet Option.none
        [(1, [Operand.singleCell 1 1 Option.none, Operand.singleCell 1 2 Option.none])])) ∧
    RPN.handle_result
        [Operand.singleCell 1 1 Option.none, Operand.singleCell 1 2 Option.none]
        Option.none ≠
      .ok (.op (.cellSet Option.none
        [(1, [Operand.singleCell 1 1 Option.none]),
         (2, [Operand.singleCell 1 2 Option.none])])) := by
  constructor
  · rfl
  · intro h
    rw [show RPN.handle_result
        [Operand.singleCell 1 1 Option.none, Operand.singleCell 1 2 Option.none]
        Option.none =
      .ok (.op (.cellSet Option.none
        [(1, [Operand.singleCell 1 1 Option.none, Operand.singleCell 1 2 Option.none])]))
      from rfl] at h
    simp at h

theorem find?_isError_eq_none (result : List Operand)
    (h : ∀ x ∈ result, x.isError = false) :
    result.find? Operand.isError = Option.none := by
  induction result with
  | nil => rfl
  | cons a l ih =>
    have ha := h a (List.mem_cons_self a l)
    rw [List.find?_cons, ha]
    exact ih (fun x hx => h x (List.mem_cons_of_mem a hx))

theorem add_row_empty (t : OperandsType) (items : List Operand)
    (h : ∀ x ∈ items, Operand.matchesType t x = true) :
    SetOperand.add_row t [] items = .ok [(1, items)] := by
  have hany : items.any (fun i => !(Operand.matchesType t i)) = false := by
    rw [List.any_eq_false]
    intro x hx
    rw [h x hx]
    decide
  have hcheck : SetOperand.check_type t items = .ok () := by
    unfold SetOperand.check_type
    rw [hany]
    rfl
  unfold SetOperand.add_row
  rw [hcheck]
  show SetOperand.add_many t [] items 1 = _
  unfold SetOperand.add_many
  rw [hcheck]
  rfl

/-- C4 (amended): with two or more non-error leftover values whose first is a
SingleCell (resp. a Scalar), `handle_result` builds a CellSet
(resp. ScalarSet) holding all remaining values added together as one single
new row; when the type-consistency check fails — e.g. a SingleCell and a
Scalar mixed — the resulting Value-Error operand is returned, not raised. -/
theorem handle_result_set_building :
    (∀ (result : List Operand) (ws : Option String), 2 ≤ result.length →
      (∀ x ∈ result, x.isSingleCell = true) →
      RPN.handle_result result ws = .ok (.op (.cellSet ws [(1, result)]))) ∧
    (∀ (result : List Operand) (ws : Option String), 2 ≤ result.length →
      (∀ x ∈ result, x.isSimple = true) →
      RPN.handle_result result ws = .ok (.op (.simpleSet ws [(1, result)]))) ∧
    (∀ (r c : Nat) (w ws : Option String) (v : PyVal),
      RPN.handle_result [Operand.singleCell r c w, Operand.simple v] ws =
        .ok (.op (.error ⟨.valueError, Option.none, Option.none⟩))) := by
  refine ⟨?_, ?_, ?_⟩
  · intro result ws h1 h2
    match result, h1 with
    | a :: b :: rest, _ =>
      have hfind : (a :: b :: rest).find? Operand.isError = Option.none := by
        apply find?_isError_eq_none
        intro x hx
        have := h2 x hx
        cases x <;> simp_all [Operand.isSingleCell, Operand.isError]
      have ha : a.isSingleCell = true := h2 a (List.mem_cons_self _ _)
      have hrow : SetOperand.add_row OperandsType.singleCellType [] (a :: b :: rest) =
          .ok [(1, a :: b :: rest)] :=
        add_row_empty _ _ (fun x hx => h2 x hx)
      show (match (a :: b :: rest).find? Operand.isError with
            | some e => Except.ok (CalcResult.op e)
            | Option.none => _) = _
      rw [hfind]
      simp only [ha]
      show (match SetOperand.add_row OperandsType.singleCellType [] (a :: b :: rest) with
            | Except.ok items => Except.ok (CalcResult.op (Operand.cellSet ws items))
            | Except.error e => Except.ok (CalcResult.op (Operand.error e))) = _
      rw [hrow]
  · intro result ws h1 h2
    match result, h1 with
    | a :: b :: rest, _ =>
      have hfind : (a :: b :: rest).find? Operand.isError = Option.none := by
        apply find?_isError_eq_none
        intro x hx
        have := h2 x hx
        cases x <;> simp_all [Operand.isSimple, Operand.isError]
      have ha : a.isSimple = true := h2 a (List.mem_cons_self _ _)
      have hnc : a.isSingleCell = false := by
        cases a <;> simp_all [Operand.isSimple, Operand.isSingleCell]
      have hrow : SetOperand.add_row OperandsType.simpleType [] (a :: b :: rest) =
          .ok [(1, a :: b :: rest)] :=
        add_row_empty _ _ (fun x hx => h2 x hx)
      show (match (a :: b :: rest).find? Operand.isError with
            | some e => Except.ok (CalcResult.op e)
            | Option.none => _) = _
      rw [hfind]
      simp only [hnc, ha]
      show (match SetOperand.add_row OperandsType.simpleType [] (a :: b :: rest) with
            | Except.ok items => Except.ok (CalcResult.op (Operand.simpleSet ws items))
            | Except.error e => Except.ok (CalcResult.op (Operand.error e))) = _
      rw [hrow]
  · intro r c w ws v
    rfl

/-- Witness for C4's amended statement: two cells fold into a one-row
CellSet; a cell mixed with a scalar returns the Value-Error. -/
theorem handle_result_set_building_witness :
    RPN.handle_result
        [Operand.singleCell 3 1 Option.none, Operand.singleCell 4 1 Option.none]
        (some "S") =
      .ok (.op (.cellSet (some "S")
        [(1, [Operand.singleCell 3 1 Option.none, Operand.singleCell 4 1 Option.none])])) ∧
    RPN.handle_result [Operand.singleCell 3 1 Option.none, Operand.simple (.num 7)]
        (some "S") =
      .ok (.op (.error ⟨.valueError, Option.none, Option.none⟩)) :=
  ⟨handle_result_set_building.1
      [Operand.singleCell 3 1 Option.none, Operand.singleCell 4 1 Option.none]
      (some "S") (by decide) (by intro x hx; fin_cases hx <;> rfl),
   handle_result_set_building.2.2 3 1 Option.none (some "S") (.num 7)⟩

/-- C10: a token that is neither an operand-like object nor an Operation is
silently skipped by the calc loop: the step leaves the stack unchanged and
raises nothing, and dropping all such tokens leaves the final result of
`RPN.calc` unchanged. -/
theorem calc_skips_non_tokens :
    (∀ (formula : String) (ws : Option String) (stack : List Operand),
      RPN.calcStep formula ws stack .other = .ok stack) ∧
    (∀ (formula : String) (ws : Option String) (tokens : List Token),
      RPN.rpnCalc formula ws (tokens.filter (fun t => !t.isOther)) =
        RPN.rpnCalc formula ws tokens) := by
  constructor
  · intro formula ws stack
    rfl
  · intro formula ws tokens
    have hfold : ∀ (ts : List Token) (s : List Operand),
        RPN.calcFold formula ws s (ts.filter (fun t => !t.isOther)) =
          RPN.calcFold formula ws s ts := by
      intro ts
      induction ts with
      | nil => intro s; rfl
      | cons t ts ih =>
        intro s
        cases t with
        | other =>
          rw [List.filter_cons]
          show RPN.calcFold formula ws s (ts.filter (fun t => !t.isOther)) =
            (match RPN.calcStep formula ws s Token.other with
             | Except.error e => Except.error e
             | Except.ok s' => RPN.calcFold formula ws s' ts)
          rw [show RPN.calcStep formula ws s Token.other = .ok s from rfl]
          exact ih s
        | operandLike o =>
          rw [List.filter_cons]
          show (match RPN.calcStep formula ws s (.operandLike o) with
                | Except.error e => Except.error e
                | Except.ok s' => RPN.calcFold formula ws s' (ts.filter (fun t => !t.isOther))) =
            (match RPN.calcStep formula ws s (.operandLike o) with
             | Except.error e => Except.error e
             | Except.ok s' => RPN.calcFold formula ws s' ts)
          rw [show RPN.calcStep formula ws s (.operandLike o) = .ok (s ++ [o]) from rfl]
          exact ih (s ++ [o])
        | operation op =>
          rw [List.filter_cons]
          show (match RPN.calcStep formula ws s (.operation op) with
                | Except.error e => Except.error e
                | Except.ok s' => RPN.calcFold formula ws s' (ts.filter (fun t => !t.isOther))) =
            (match RPN.calcStep formula ws s (.operation op) with
             | Except.error e => Except.error e
             | Except.ok s' => RPN.calcFold formula ws s' ts)
          cases RPN.calcStep formula ws s (.operation op) with
          | error e => rfl
          | ok s' => exact ih s'
    unfold RPN.rpnCalc RPN.calcTokens
    rw [hfold tokens []]

/-! ### The division operation (for C1's concrete 4 0 / example) -/

/-- Embedding of `utils.digit` (utils.py lines 60–67) on the scalar values
the claims exercise: numbers pass through, booleans become 0/1, None becomes
0.  Text goes through `float(v)` — numeric-text parsing is not exercised by
any claim, so text is mapped to the coercion fault `float` raises on
non-numeric text; a list is returned unchanged by `digit` and the ensuing
arithmetic raises a TypeError, collapsed here to the same fault. -/
def utils_digit : PyVal → Except Unit ℚ
  | .num q => .ok q
  | .boolean b => .ok (if b then 1 else 0)
  | .none => .ok 0
  | .str _ => .error ()
  | .list _ => .error ()

/-- `Operand.digit` (operands.py lines 24–27): `digit(self.value) if
self.value else 0` for Simple operands.  Cell-backed operands resolve
through the data source, which is outside every claim, so they map to the
coercion fault. -/
def Operand.digit : Operand → Except Unit ℚ
  | .simple v => if v.truthy then utils_digit v else .ok 0
  | _ => .error ()

/-- Modelled from the spec: the Operation wrapper class lives in
`rpn_builder/parser/operations.py`, which is not under src/.  Per spec §4.3
and §4.5, the division operation resolves both arguments as numbers and
applies `divide_func` from src/efc/rpn/functions.py (`a / b`): a raised
ErrorOperand argument propagates as itself, division raises the
division-by-zero fault when the divisor is exactly zero, and any coercion
failure raises the value-error fault. -/
def divide_operation : Operation :=
  Operation.mk "/" 2 (fun args =>
    match args with
    | [Operand.error e, _] => .raiseError e
    | [_, Operand.error e] => .raiseError e
    | [a, b] =>
      match a.digit, b.digit with
      | .ok qa, .ok qb =>
        if qb = 0 then .zeroDivFault else .ok (.simple (.num (qa / qb)))
      | _, _ => .typeOrValueFault
    | _ => .otherFault)

/-- C1: a division-by-zero fault raised by the operation's function becomes
the Division-by-Zero error operand (display `#DIV/0!`) pushed as the
operation's result, a type/value coercion fault becomes the Value-Error
operand, and the postfix sequence 4 0 / evaluates to the Division-by-Zero
error as the final result, not to a hard failure. -/
theorem calc_fault_to_error_operand :
    (∀ (formula : String) (ws : Option String) (stack : List Operand) (op : Operation),
      op.operands_count ≤ stack.length →
      (op.eval (stack.drop (stack.length - op.operands_count)) = .zeroDivFault →
        RPN.calcStep formula ws stack (.operation op) =
          .ok (stack.take (stack.length - op.operands_count) ++
            [.error ⟨.zeroDivision, ws, some formula⟩])) ∧
      (op.eval (stack.drop (stack.length - op.operands_count)) = .typeOrValueFault →
        RPN.calcStep formula ws stack (.operation op) =
          .ok (stack.take (stack.length - op.operands_count) ++
            [.error ⟨.valueError, ws, some formula⟩]))) ∧
    ErrKind.string_value .zeroDivision = "#DIV/0!" ∧
    RPN.rpnCalc "4 0 /" Option.none
        [.operandLike (.simple (.num 4)), .operandLike (.simple (.num 0)),
          .operation divide_operation] =
      .ok (.op (.error ⟨.zeroDivision, Option.none, some "4 0 /"⟩)) := by
  refine ⟨?_, rfl, rfl⟩
  intro formula ws stack op h
  have hnl : ¬(stack.length < op.operands_count) := Nat.not_lt.mpr h
  constructor
  · intro hev
    show (if stack.length < op.operands_count then
        Except.error (Fatal.operandsMissing op.f_name formula)
      else
        match op.eval (stack.drop (stack.length - op.operands_count)) with
          | EvalOutcome.ok v =>
            Except.ok (stack.take (stack.length - op.operands_count) ++ [RPN.stamp formula ws v])
          | EvalOutcome.raiseError e =>
            Except.ok (stack.take (stack.length - op.operands_count) ++
              [RPN.stamp formula ws (Operand.error e)])
          | EvalOutcome.typeOrValueFault =>
            Except.ok (stack.take (stack.length - op.operands_count) ++
              [RPN.stamp formula ws (Operand.error ⟨.valueError, Option.none, Option.none⟩)])
          | EvalOutcome.zeroDivFault =>
            Except.ok (stack.take (stack.length - op.operands_count) ++
              [RPN.stamp formula ws (Operand.error ⟨.zeroDivision, Option.none, Option.none⟩)])
          | EvalOutcome.otherFault => Except.error Fatal.otherFault) = _
    rw [if_neg hnl, hev]
    rfl
  · intro hev
    show (if stack.length < op.operands_count then
        Except.error (Fatal.operandsMissing op.f_name formula)
      else
        match op.eval (stack.drop (stack.length - op.operands_count)) with
          | EvalOutcome.ok v =>
            Except.ok (stack.take (stack.length - op.operands_count) ++ [RPN.stamp formula ws v])
          | EvalOutcome.raiseError e =>
            Except.ok (stack.take (stack.length - op.operands_count) ++
              [RPN.stamp formula ws (Operand.error e)])
          | EvalOutcome.typeOrValueFault =>
            Except.ok (stack.take (stack.length - op.operands_count) ++
              [RPN.stamp formula ws (Operand.error ⟨.valueError, Option.none, Option.none⟩)])
          | EvalOutcome.zeroDivFault =>
            Except.ok (stack.take (stack.length - op.operands_count) ++
              [RPN.stamp formula ws (Operand.error ⟨.zeroDivision, Option.none, Option.none⟩)])
          | EvalOutcome.otherFault => Except.error Fatal.otherFault) = _
    rw [if_neg hnl, hev]
    rfl

/-- Witness for C1: the division operation over the stack [4, 0] raises the
division-by-zero fault and the step pushes the `#DIV/0!` error operand. -/
theorem calc_fault_to_error_operand_witness :
    divide_operation.operands_count ≤
      ([Operand.simple (.num 4), Operand.simple (.num 0)] : List Operand).length ∧
    divide_operation.eval [Operand.simple (.num 4), Operand.simple (.num 0)] = .zeroDivFault ∧
    RPN.calcStep "4 0 /" (some "S")
        [Operand.simple (.num 4), Operand.simple (.num 0)] (.operation divide_operation) =
      .ok [Operand.error ⟨.zeroDivision, some "S", some "4 0 /"⟩] :=
  ⟨by decide, rfl,
    (calc_fault_to_error_operand.1 "4 0 /" (some "S")
      [Operand.simple (.num 4), Operand.simple (.num 0)] divide_operation
      (by decide)).1 rfl⟩

/-! ### sum_func (src/efc/rpn/functions.py lines 54–65) -/

/-- Python `result += v` on a float accumulator: numbers add, booleans add as
0/1, and adding None/text/a list raises a TypeError. -/
def numAdd (acc : ℚ) : PyVal → Except Unit ℚ
  | .num q => .ok (acc + q)
  | .boolean b => .ok (acc + (if b then 1 else 0))
  | _ => .error ()

/-- Embedding of `sum(i for i in l if i)` threading the running sum. -/
def sumTruthyFrom (acc : ℚ) : List PyVal → Except Unit ℚ
  | [] => .ok acc
  | i :: rest =>
    if i.truthy then
      match numAdd acc i with
      | .error e => .error e
      | .ok acc2 => sumTruthyFrom acc2 rest
    else sumTruthyFrom acc rest

/-- `sum(i for i in l if i)`: the sum of the truthy elements of l. -/
def sumTruthy (l : List PyVal) : Except Unit ℚ := sumTruthyFrom 0 l

/-- The `for row in arg` loop of sum_func: each row must be an iterable of
values whose truthy elements sum (a non-list row raises a TypeError). -/
def sumRows (result : ℚ) : List PyVal → Except Unit ℚ
  | [] => .ok result
  | row :: rest =>
    match row with
    | .list r =>
      match sumTruthy r with
      | .error e => .error e
      | .ok s => sumRows (result + s) rest
    | _ => .error ()

def PyVal.isList : PyVal → Bool
  | .list _ => true
  | _ => false

/-- One loop iteration of `sum_func` on one (truthy) argument: list arguments
whose first element is a list contribute row by row, other list arguments
contribute the sum of their own truthy elements, and anything else is added
as-is; falsy arguments are filtered out by the generator. -/
def sumStep (result : ℚ) (arg : PyVal) : Except Unit ℚ :=
  if arg.truthy then
    match arg with
    | .list l =>
      match l.head? with
      | some (.list _) => sumRows result l
      | _ =>
        match sumTruthy l with
        | .error e => .error e
        | .ok s => .ok (result + s)
    | _ => numAdd result arg
  else .ok result

/-- The accumulation loop of `sum_func` over the remaining arguments. -/
def sumFrom (result : ℚ) : List PyVal → Except Unit ℚ
  | [] => .ok result
  | arg :: rest =>
    match sumStep result arg with
    | .error e => .error e
    | .ok r => sumFrom r rest

/-- `sum_func(*args)`: the running total is seeded at 0.0 (modelled as the
rational 0). -/
def sum_func (args : List PyVal) : Except Unit ℚ := sumFrom 0 args

theorem sumRows_map (result : ℚ) (rows : List (List PyVal)) (sums : List ℚ)
    (h : rows.mapM sumTruthy = .ok sums) :
    sumRows result (rows.map PyVal.list) = .ok (result + sums.sum) := by
  induction rows generalizing result sums with
  | nil =>
    have hs : sums = [] := by
      have : (Except.ok [] : Except Unit (List ℚ)) = .ok sums := h
      cases this
      rfl
    rw [hs]
    show Except.ok result = Except.ok (result + 0)
    rw [add_zero]
  | cons r rest ih =>
    rw [List.mapM_cons] at h
    cases hr : sumTruthy r with
    | error e =>
      rw [hr] at h
      exact Except.noConfusion h
    | ok s =>
      rw [hr] at h
      cases hrest : rest.mapM sumTruthy with
      | error e =>
        rw [hrest] at h
        exact Except.noConfusion h
      | ok ss =>
        rw [hrest] at h
        have hsums : sums = s :: ss := by
          have : (Except.ok (s :: ss) : Except Unit (List ℚ)) = .ok sums := h
          cases this
          rfl
        rw [hsums]
        show (match sumTruthy r with
              | Except.error e => Except.error e
              | Except.ok s2 => sumRows (result + s2) (rest.map PyVal.list)) = _
        rw [hr]
        show sumRows (result + s) (rest.map PyVal.list) = _
        rw [ih (result + s) ss hrest, List.sum_cons, add_assoc]

/-- C5: `sum_func` seeds the total at 0, skips every falsy/blank argument, a
list argument whose first element is itself a list contributes the sum of
each inner row's truthy elements, any other list argument contributes the
sum of its own truthy elements, a non-list argument is added as-is, and
summing the resolved cell values 1, blank, 3 yields 4. -/
theorem sum_func_spec :
    sum_func [] = .ok 0 ∧
    (∀ (result : ℚ) (arg : PyVal), arg.truthy = false → sumStep result arg = .ok result) ∧
    (∀ (result : ℚ) (rows : List (List PyVal)) (sums : List ℚ), rows ≠ [] →
      rows.mapM sumTruthy = .ok sums →
      sumStep result (.list (rows.map PyVal.list)) = .ok (result + sums.sum)) ∧
    (∀ (result : ℚ) (l : List PyVal) (s : ℚ), l ≠ [] →
      (∀ x, l.head? = some x → x.isList = false) →
      sumTruthy l = .ok s →
      sumStep result (.list l) = .ok (result + s)) ∧
    (∀ (result q : ℚ), q ≠ 0 → sumStep result (.num q) = .ok (result + q)) ∧
    sum_func [.list [.num 1, .none, .num 3]] = .ok 4 ∧
    sum_func [.num 1, .none, .num 3] = .ok 4 := by
  refine ⟨rfl, ?_, ?_, ?_, ?_, ?_, ?_⟩
  · intro result arg h
    unfold sumStep
    rw [h]
    rfl
  · intro result rows sums hne h
    match rows, hne with
    | r0 :: rest, _ =>
      have htr : (PyVal.list ((r0 :: rest).map PyVal.list)).truthy = true := by
        simp [PyVal.truthy, List.isEmpty]
      unfold sumStep
      rw [htr]
      show (match ((r0 :: rest).map PyVal.list).head? with
            | some (PyVal.list _) => sumRows result ((r0 :: rest).map PyVal.list)
            | _ =>
              match sumTruthy ((r0 :: rest).map PyVal.list) with
              | Except.error e => Except.error e
              | Except.ok s => Except.ok (result + s)) = _
      rw [show ((r0 :: rest).map PyVal.list).head? = some (PyVal.list r0) from rfl]
      exact sumRows_map result (r0 :: rest) sums h
  · intro result l s hne hhd hsum
    match l, hne with
    | x0 :: rest, _ =>
      have htr : (PyVal.list (x0 :: rest)).truthy = true := by
        simp [PyVal.truthy, List.isEmpty]
      unfold sumStep
      rw [htr]
      have hx0 : x0.isList = false := hhd x0 rfl
      show (match (x0 :: rest).head? with
            | some (PyVal.list _) => sumRows result (x0 :: rest)
            | _ =>
              match sumTruthy (x0 :: rest) with
              | Except.error e => Except.error e
              | Except.ok s2 => Except.ok (result + s2)) = _
      rw [show (x0 :: rest).head? = some x0 from rfl]
      cases x0 with
      | list il => exact absurd hx0 (by simp [PyVal.isList])
      | none => rw [hsum]
      | boolean b => rw [hsum]
      | num q => rw [hsum]
      | str st => rw [hsum]
  · intro result q hq
    unfold sumStep
    have htr : (PyVal.num q).truthy = true := by
      simp [PyVal.truthy, hq]
    rw [htr]
    show numAdd result (PyVal.num q) = _
    rfl
  · exact congrArg Except.ok (by norm_num : (0 : ℚ) + (0 + 1 + 3) = 4)
  · exact congrArg Except.ok (by norm_num : (0 : ℚ) + 1 + 3 = 4)

/-- Witness for C5: the clauses with hypotheses applied at concrete inputs —
the blank is skipped, one row contributes its truthy sum, a flat list
contributes its truthy sum, and 2 is added as-is. -/
theorem sum_func_spec_witness :
    sumStep 5 PyVal.none = .ok 5 ∧
    sumStep 0 (.list [.list [.num 1, .none, .num 3]]) = .ok (0 + ([4] : List ℚ).sum) ∧
    sumStep 1 (.list [.num 1, .none, .num 3]) = .ok (1 + 4) ∧
    sumStep 2 (.num 2) = .ok (2 + 2) :=
  ⟨sum_func_spec.2.1 5 PyVal.none rfl,
   sum_func_spec.2.2.1 0 [[.num 1, .none, .num 3]] [4] (by simp)
     (congrArg Except.ok (by norm_num : [(0 : ℚ) + 1 + 3] = [4])),
   sum_func_spec.2.2.2.1 1 [.num 1, .none, .num 3] 4 (by simp)
     (by intro x hx; cases hx; rfl)
     (congrArg Except.ok (by norm_num : (0 : ℚ) + 1 + 3 = 4)),
   sum_func_spec.2.2.2.2.1 2 2 (by norm_num)⟩

/-! ### CellRangeOperand.get_iter (operands.py lines 220–243) -/

/-- The data-source bound queries used to resolve open-ended range bounds. -/
structure DataSource where
  min_row : Option String → Nat
  max_row : Option String → Nat
  min_column : Option String → Nat
  max_column : Option String → Nat

/-- A CellRange operand: worksheet plus optional bounds; a None bound means
"extend to the sheet's min/max". -/
structure CellRangeOperand where
  row1 : Option Nat
  column1 : Option Nat
  row2 : Option Nat
  column2 : Option Nat
  ws_name : Option String

/-- Python `range(a, b)`: the integers a, a+1, …, b−1 (empty when b ≤ a). -/
def pyRange (a b : Nat) : List Nat := List.range' a (b - a)

/-- Resolution of a None bound via the data source, as performed at the top
of `get_iter`. -/
def CellRangeOperand.resolvedRow1 (cr : CellRangeOperand) (source : DataSource) : Nat :=
  match cr.row1 with
  | Option.none => source.min_row cr.ws_name
  | some r => r

def CellRangeOperand.resolvedRow2 (cr : CellRangeOperand) (source : DataSource) : Nat :=
  match cr.row2 with
  | Option.none => source.max_row cr.ws_name
  | some r => r

def CellRangeOperand.resolvedColumn1 (cr : CellRangeOperand) (source : DataSource) : Nat :=
  match cr.column1 with
  | Option.none => source.min_column cr.ws_name
  | some c => c

def CellRangeOperand.resolvedColumn2 (cr : CellRangeOperand) (source : DataSource) : Nat :=
  match cr.column2 with
  | Option.none => source.max_column cr.ws_name
  | some c => c

/-- `CellRangeOperand.get_iter`: resolve None bounds, then yield SingleCell
operands — one row left-to-right, or one column top-to-bottom, or the whole
rectangle row-major. -/
def CellRangeOperand.get_iter (cr : CellRangeOperand) (source : DataSource) : List Operand :=
  let row1 := cr.resolvedRow1 source
  let row2 := cr.resolvedRow2 source
  let column1 := cr.resolvedColumn1 source
  let column2 := cr.resolvedColumn2 source
  if row1 = row2 then
    (pyRange column1 (column2 + 1)).map (fun c => Operand.singleCell row1 c cr.ws_name)
  else if column1 = column2 then
    (pyRange row1 (row2 + 1)).map (fun r => Operand.singleCell r column1 cr.ws_name)
  else
    (pyRange row1 (row2 + 1)).flatMap
      (fun r => (pyRange column1 (column2 + 1)).map (fun c => Operand.singleCell r c cr.ws_name))

/-- Row-major enumeration of the rectangle [r1..r2] × [c1..c2], written
independently of `get_iter`. -/
def rowMajorCells (r1 c1 r2 c2 : Nat) (ws : Option String) : List Operand :=
  (List.range' r1 (r2 + 1 - r1)).flatMap
    (fun r => (List.range' c1 (c2 + 1 - c1)).map (fun c => Operand.singleCell r c ws))

/-- C8: after None bounds are replaced by the data source's min/max, a range
whose resolved rows coincide yields one cell per column left-to-right, one
whose resolved columns coincide yields one cell per row top-to-bottom, and
otherwise every cell of the rectangle is yielded in row-major order. -/
theorem cell_range_get_iter_cases (cr : CellRangeOperand) (source : DataSource) :
    (cr.resolvedRow1 source = cr.resolvedRow2 source →
      cr.get_iter source =
        (List.range' (cr.resolvedColumn1 source)
            (cr.resolvedColumn2 source + 1 - cr.resolvedColumn1 source)).map
          (fun c => Operand.singleCell (cr.resolvedRow1 source) c cr.ws_name)) ∧
    (cr.resolvedColumn1 source = cr.resolvedColumn2 source →
      cr.get_iter source =
        (List.range' (cr.resolvedRow1 source)
            (cr.resolvedRow2 source + 1 - cr.resolvedRow1 source)).map
          (fun r => Operand.singleCell r (cr.resolvedColumn1 source) cr.ws_name)) ∧
    (cr.resolvedRow1 source ≠ cr.resolvedRow2 source →
      cr.resolvedColumn1 source ≠ cr.resolvedColumn2 source →
      cr.get_iter source =
        rowMajorCells (cr.resolvedRow1 source) (cr.resolvedColumn1 source)
          (cr.resolvedRow2 source) (cr.resolvedColumn2 source) cr.ws_name) := by
  refine ⟨?_, ?_, ?_⟩
  · intro hR
    unfold CellRangeOperand.get_iter
    rw [if_pos hR]
    rfl
  · intro hC
    by_cases hR : cr.resolvedRow1 source = cr.resolvedRow2 source
    · unfold CellRangeOperand.get_iter
      rw [if_pos hR]
      rw [show pyRange (cr.resolvedColumn1 source) (cr.resolvedColumn2 source + 1) =
            List.range' (cr.resolvedColumn1 source)
              (cr.resolvedColumn2 source + 1 - cr.resolvedColumn1 source) from rfl]
      rw [← hC, ← hR]
      rw [show cr.resolvedColumn1 source + 1 - cr.resolvedColumn1 source = 1 by omega,
        show cr.resolvedRow1 source + 1 - cr.resolvedRow1 source = 1 by omega]
      rfl
    · unfold CellRangeOperand.get_iter
      rw [if_neg hR, if_pos hC]
      rfl
  · intro hR hC
    unfold CellRangeOperand.get_iter
    rw [if_neg hR, if_neg hC]
    rfl

/-- Witness for C8: the three cases at concrete ranges over a 5×5 sheet —
the single row B2:D2, the single column A1:A3 (with its row bound open and
resolved to the sheet's max row of 3), and the 2-D rectangle A1:B2. -/
theorem cell_range_get_iter_cases_witness :
    (CellRangeOperand.mk (some 2) (some 2) (some 2) (some 4) (some "S")).get_iter
        (DataSource.mk (fun _ => 1) (fun _ => 3) (fun _ => 1) (fun _ => 5)) =
      [Operand.singleCell 2 2 (some "S"), Operand.singleCell 2 3 (some "S"),
        Operand.singleCell 2 4 (some "S")] ∧
    (CellRangeOperand.mk (some 1) (some 1) Option.none (some 1) (some "S")).get_iter
        (DataSource.mk (fun _ => 1) (fun _ => 3) (fun _ => 1) (fun _ => 5)) =
      [Operand.singleCell 1 1 (some "S"), Operand.singleCell 2 1 (some "S"),
        Operand.singleCell 3 1 (some "S")] ∧
    (CellRangeOperand.mk (some 1) (some 1) (some 2) (some 2) (some "S")).get_iter
        (DataSource.mk (fun _ => 1) (fun _ => 3) (fun _ => 1) (fun _ => 5)) =
      rowMajorCells 1 1 2 2 (some "S") := by
  refine ⟨?_, ?_, ?_⟩
  · rw [(cell_range_get_iter_cases
      (CellRangeOperand.mk (some 2) (some 2) (some 2) (some 4) (some "S"))
      (DataSource.mk (fun _ => 1) (fun _ => 3) (fun _ => 1) (fun _ => 5))).1 rfl]
    rfl
  · rw [(cell_range_get_iter_cases
      (CellRangeOperand.mk (some 1) (some 1) Option.none (some 1) (some "S"))
      (DataSource.mk (fun _ => 1) (fun _ => 3) (fun _ => 1) (fun _ => 5))).2.1 rfl]
    rfl
  · exact (cell_range_get_iter_cases
      (CellRangeOperand.mk (some 1) (some 1) (some 2) (some 2) (some "S"))
      (DataSource.mk (fun _ => 1) (fun _ => 3) (fun _ => 1) (fun _ => 5))).2.2
      (by decide) (by decide)

/-! ### The Array cursor (src/efc/utils.py lines 70–115) -/

/-- The cursor sequence: a backing list plus the integer cursor position
`_pos`, which starts at −1 ("before the first element"). -/
structure Array (α : Type) where
  array : List α
  pos : Int

/-- `__init__`: a fresh cursor over a backing list. -/
def Array.init (a : List α) : Array α := Array.mk a (-1)

/-- `is_ended`: `self._pos + 1 >= len(self._array)`. -/
def Array.is_ended (s : Array α) : Bool := (s.array.length : Int) ≤ s.pos + 1

/-- `next`: raise StopIteration (leaving the state untouched) when already
ended, else advance the cursor and return the element there.  The element
lookup models `self._array[self._pos]`, total via Option; python's
negative-index semantics is unreachable while `pos ≥ −1` holds. -/
def Array.next (s : Array α) : Except Unit (Option α × Array α) :=
  if s.is_ended then .error ()
  else .ok (s.array.get? (s.pos + 1).toNat, Array.mk s.array (s.pos + 1))

/-- `current`: the element at the cursor, or None when unstarted. -/
def Array.current (s : Array α) : Option α :=
  if 0 ≤ s.pos then s.array.get? s.pos.toNat else Option.none

/-- `prev`: the element right before the cursor, or None at/before start. -/
def Array.prev (s : Array α) : Option α :=
  if 0 < s.pos then s.array.get? (s.pos - 1).toNat else Option.none

/-- `reset`: rewind to before the first element. -/
def Array.reset (s : Array α) : Array α := Array.mk s.array (-1)

/-- `step_back(step)`: full reset when the step exceeds `_pos + 1`, else move
the cursor back by `step`. -/
def Array.step_back (s : Array α) (step : Nat) : Array α :=
  if (step : Int) > s.pos + 1 then s.reset else Array.mk s.array (s.pos - step)

/-- `append`: extend the backing sequence, cursor untouched. -/
def Array.appendValue (s : Array α) (v : α) : Array α := Array.mk (s.array ++ [v]) s.pos

/-- A cursor operation of the kind the claim quantifies over. -/
inductive ArrayOp where
  | next
  | step_back (n : Nat)
  | reset

/-- The state reached after one cursor operation (a failing `next` leaves the
state unchanged). -/
def Array.applyOp (s : Array α) : ArrayOp → Array α
  | .next =>
    match s.next with
    | .error _ => s
    | .ok p => p.2
  | .step_back n => s.step_back n
  | .reset => s.reset

/-- The state reached after a whole sequence of cursor operations. -/
def Array.runOps (s : Array α) (ops : List ArrayOp) : Array α :=
  ops.foldl Array.applyOp s

theorem Array.applyOp_pos_ge (s : Array α) (o : ArrayOp) (h : -1 ≤ s.pos) :
    -1 ≤ (s.applyOp o).pos := by
  cases o with
  | next =>
    unfold Array.applyOp Array.next
    by_cases he : s.is_ended
    · rw [if_pos he]
      exact h
    · rw [if_neg he]
      show -1 ≤ s.pos + 1
      omega
  | step_back n =>
    show -1 ≤ (s.step_back n).pos
    unfold Array.step_back
    by_cases hc : (n : Int) > s.pos + 1
    · rw [if_pos hc]
      show (-1 : Int) ≤ -1
      omega
    · rw [if_neg hc]
      show -1 ≤ s.pos - n
      omega
  | reset =>
    show (-1 : Int) ≤ -1
    omega

/-- C9: a `next` on an ended cursor fails with the end-of-sequence condition
and leaves the position unchanged; `step_back n` lands on
`max (pos − n) (−1)`, i.e. clamps at before-the-first whenever n exceeds the
available positions; and under every sequence of next/step_back/reset
operations from a fresh cursor the position never drops below −1. -/
theorem array_cursor_ops :
    (∀ (α : Type) (s : Array α), s.is_ended = true →
      s.next = .error () ∧ s.applyOp .next = s) ∧
    (∀ (α : Type) (s : Array α) (n : Nat), -1 ≤ s.pos →
      (s.step_back n).pos = max (s.pos - n) (-1)) ∧
    (∀ (α : Type) (l : List α) (ops : List ArrayOp),
      -1 ≤ ((Array.init l).runOps ops).pos) := by
  refine ⟨?_, ?_, ?_⟩
  · intro α s h
    constructor
    · unfold Array.next
      rw [if_pos h]
    · unfold Array.applyOp Array.next
      rw [if_pos h]
  · intro α s n h
    unfold Array.step_back
    by_cases hc : (n : Int) > s.pos + 1
    · rw [if_pos hc]
      show (-1 : Int) = _
      omega
    · rw [if_neg hc]
      show s.pos - n = _
      omega
  · intro α l ops
    have hrun : ∀ (ops : List ArrayOp) (s : Array α), -1 ≤ s.pos →
        -1 ≤ (s.runOps ops).pos := by
      intro ops
      induction ops with
      | nil => intro s h; exact h
      | cons o os ih =>
        intro s h
        exact ih (s.applyOp o) (Array.applyOp_pos_ge s o h)
    exact hrun ops (Array.init l) (by show (-1 : Int) ≤ -1; omega)

/-- Witness for C9: an ended two-element cursor, a clamped 10-step rewind
from position 1, and a short concrete operation run. -/
theorem array_cursor_ops_witness :
    (Array.mk [10, 20] 1).is_ended = true ∧
    (Array.mk [10, 20] 1).next = .error () ∧
    (Array.mk ([] : List Nat) 1).step_back 10 = Array.mk ([] : List Nat) (max (1 - (10 : Nat)) (-1)) ∧
    -1 ≤ ((Array.init [5]).runOps [ArrayOp.next, ArrayOp.step_back 7, ArrayOp.next]).pos :=
  ⟨rfl,
   ((array_cursor_ops.1 Nat (Array.mk [10, 20] 1)) rfl).1,
   by
     have h := array_cursor_ops.2.1 Nat (Array.mk ([] : List Nat) 1) 10 (by norm_num)
     show Array.mk ([] : List Nat) ((Array.mk ([] : List Nat) 1).step_back 10).pos = _
     rw [h]
   , array_cursor_ops.2.2 Nat [5] [ArrayOp.next, ArrayOp.step_back 7, ArrayOp.next]⟩

end Efc
